import Mathlib

/-!
Verification of the cash-forecast simulation engine (src/main.rs).

The engine is embedded shallowly:
* `rust_decimal::Decimal` values are modelled as `ℚ`; `round_dp(2)` (whose
  default strategy is midpoint-nearest-even) is modelled by `round_dp2`.
* `HashMap<String, Decimal>` is modelled as an association list
  `Balances := List (String × ℚ)`; `getBal` reads the (unique) binding,
  `adjust` mutates it in place, `insertBal` inserts-or-overwrites.
* `chrono::NaiveDate` is modelled by `Date` with Gregorian day stepping.
* Every panic of the Rust code (`expect`, `assert!`, the final
  "balances do not sum to zero" panic) becomes an `Except.error` with a
  constructor of `StepErr` matching the panic site.
-/

def MAIN_ACCOUNT : String := "main"

def SALARY_INCOME : String := "salary_income"

def MORTGAGE_INCOME : String := "mortgage_income"

def MORTGAGE_ACCOUNT : String := "mortgage"

def OPENING_BALANCES : String := "opening_balances"

def CHARITY_EXPENDITURE : String := "charity_expenditure"

/-- Civil (Gregorian) calendar date, modelling `chrono::NaiveDate`. -/
structure Date where
  year : Int
  month : Nat
  day : Nat
deriving DecidableEq

def is_leap_year (y : Int) : Bool :=
  (Int.emod y 4 = 0 && Int.emod y 100 ≠ 0) || Int.emod y 400 = 0

def days_in_month (y : Int) (m : Nat) : Nat :=
  if m = 2 then (if is_leap_year y then 29 else 28)
  else if m = 4 ∨ m = 6 ∨ m = 9 ∨ m = 11 then 30
  else 31

/-- `date + chrono::Duration::days(1)`: the next civil calendar day. -/
def next_day (d : Date) : Date :=
  if d.day < days_in_month d.year d.month then ⟨d.year, d.month, d.day + 1⟩
  else if d.month < 12 then ⟨d.year, d.month + 1, 1⟩
  else ⟨d.year + 1, 1, 1⟩

/-- Floor of a rational, computed on the reduced fraction. -/
def qfloor (x : ℚ) : ℤ := Int.fdiv x.num (x.den : ℤ)

/-- Round a rational to the nearest integer, ties to the even integer:
`rust_decimal`'s default `MidpointNearestEven` strategy. -/
def round_half_even (x : ℚ) : ℤ :=
  let f : ℤ := qfloor x
  let r : ℚ := x - (f : ℚ)
  if r < 1/2 then f
  else if 1/2 < r then f + 1
  else if Int.emod f 2 = 0 then f else f + 1

/-- `Decimal::round_dp(2)`: round to 2 decimal places, ties to even. -/
def round_dp2 (x : ℚ) : ℚ := (round_half_even (x * 100) : ℚ) / 100

/-- The balance sheet: account name to signed amount.  The Rust `HashMap`
has unique keys; all operations below act on the first binding of a key. -/
abbrev Balances : Type := List (String × ℚ)

/-- `HashMap::get`: value of the binding of `k`, if present. -/
def getBal : Balances → String → Option ℚ
  | [], _ => none
  | (k', v) :: r, k => if k' = k then some v else getBal r k

/-- `*HashMap::get_mut(k) += d`: add `d` to the binding of `k`;
`none` when `k` is absent (the Rust code panics through `expect`). -/
def adjust : Balances → String → ℚ → Option Balances
  | [], _, _ => none
  | (k', v) :: r, k, d =>
    if k' = k then some ((k', v + d) :: r)
    else (adjust r k d).map (fun r' => (k', v) :: r')

/-- `HashMap::insert`: overwrite the binding of `k`, or append it. -/
def insertBal : Balances → String → ℚ → Balances
  | [], k, v => [(k, v)]
  | (k', v') :: r, k, v =>
    if k' = k then (k', v) :: r else (k', v') :: insertBal r k v

/-- `balances.values().sum()`. -/
def sumBal (m : Balances) : ℚ := (m.map Prod.snd).sum

/-- The tagged transaction-rule union of the configuration. -/
inductive Generator where
  | Mortgage (deduction_amount : ℚ) (deduction_day : Nat) (from_ to_ : String)
  | Interest (rate : ℚ) (day : Nat) (account income_account : String)
  | Salary (amount : ℚ) (day : Nat) (to_ : String)
  | Transfer (amount : ℚ) (day : Nat) (from_ to_ : String)
  | Tithe (percentage : ℚ) (day : Nat) (from_ to_ : String)
deriving DecidableEq

/-- The parts of `Config` the engine reads: the ordered generator list and
the simulation start date. -/
structure Config where
  transactions : List Generator
  start_date : Date

/-- One panic site of the engine, used as the `Except` error type. -/
inductive StepErr where
  | account_missing (name : String)
  | mortgage_positive
  | deduction_exceeds
  | deduction_negative
  | nonzero_total
deriving DecidableEq

instance {ε α : Type} [DecidableEq ε] [DecidableEq α] : DecidableEq (Except ε α) :=
  fun x y =>
    match x, y with
    | .error a, .error b =>
      if h : a = b then .isTrue (by rw [h]) else .isFalse (fun hc => by cases hc; exact h rfl)
    | .error _, .ok _ => .isFalse (fun hc => by cases hc)
    | .ok _, .error _ => .isFalse (fun hc => by cases hc)
    | .ok a, .ok b =>
      if h : a = b then .isTrue (by rw [h]) else .isFalse (fun hc => by cases hc; exact h rfl)

/-- The double mutation `*get_mut(k1) += d1; *get_mut(k2) += d2` shared by
every generator arm of the Rust match. -/
def app2 (m : Balances) (k1 : String) (d1 : ℚ) (k2 : String) (d2 : ℚ) :
    Except StepErr Balances :=
  match adjust m k1 d1 with
  | none => .error (.account_missing k1)
  | some m1 =>
    match adjust m1 k2 d2 with
    | none => .error (.account_missing k2)
    | some m2 => .ok m2

/-- One arm of the `for transaction in &config.transactions` match in
`compute_next_day_balances_with_tithe` (src/main.rs lines 188-239): apply a
single generator to the balance sheet and the salary accumulator. -/
def apply_generator (g : Generator) (date : Date) (st : Balances × ℚ) :
    Except StepErr (Balances × ℚ) :=
  match g, st with
  | .Mortgage deduction_amount deduction_day fr to_, (m, acc) =>
    if date.day = deduction_day then
      match getBal m fr with
      | none => .error (.account_missing fr)
      | some from_balance =>
        match getBal m to_ with
        | none => .error (.account_missing to_)
        | some to_balance =>
          if to_balance ≤ 0 then
            let actual := max (min (min deduction_amount (-to_balance)) from_balance) 0
            if actual ≤ deduction_amount then
              if 0 ≤ actual then
                (app2 m fr (-actual) to_ actual).map (fun m2 => (m2, acc))
              else .error .deduction_negative
            else .error .deduction_exceeds
          else .error .mortgage_positive
    else .ok (m, acc)
  | .Interest rate dy acct inc, (m, acc) =>
    if date.day = dy ∧ rate ≠ 0 then
      match getBal m acct with
      | none => .error (.account_missing acct)
      | some current_balance =>
        let monthly_interest := round_dp2 (current_balance * (rate / 12 / 100))
        (app2 m acct monthly_interest inc (-monthly_interest)).map (fun m2 => (m2, acc))
    else .ok (m, acc)
  | .Salary amount dy to_, (m, acc) =>
    if date.day = dy then
      (app2 m to_ amount SALARY_INCOME (-amount)).map (fun m2 => (m2, acc + amount))
    else .ok (m, acc)
  | .Transfer amount dy fr to_, (m, acc) =>
    if date.day = dy then
      (app2 m fr (-amount) to_ amount).map (fun m2 => (m2, acc))
    else .ok (m, acc)
  | .Tithe percentage dy fr to_, (m, acc) =>
    if date.day = dy then
      let tithe_amount := round_dp2 (acc * percentage / 100)
      if 0 < tithe_amount then
        (app2 m fr (-tithe_amount) to_ tithe_amount).map (fun m2 => (m2, 0))
      else .ok (m, acc)
    else .ok (m, acc)

/-- The whole generator loop of `compute_next_day_balances_with_tithe`. -/
def apply_generators : List Generator → Date → Balances × ℚ →
    Except StepErr (Balances × ℚ)
  | [], _, st => .ok st
  | g :: gs, date, st =>
    match apply_generator g date st with
    | .error e => .error e
    | .ok st' => apply_generators gs date st'

/-- `compute_next_day_balances_with_tithe` (src/main.rs lines 178-251):
run every generator in declaration order, then check that the new balances
sum to exactly zero (the Rust code panics otherwise). -/
def compute_next_day_balances_with_tithe (gens : List Generator) (m : Balances)
    (date : Date) (total_salary_since_last_tithe : ℚ) :
    Except StepErr (Balances × ℚ) :=
  match apply_generators gens date (m, total_salary_since_last_tithe) with
  | .error e => .error e
  | .ok (m', acc') => if sumBal m' = 0 then .ok (m', acc') else .error .nonzero_total

/-- `compute_next_day_balances`: the accumulator-free wrapper. -/
def compute_next_day_balances (gens : List Generator) (m : Balances) (date : Date) :
    Except StepErr Balances :=
  match compute_next_day_balances_with_tithe gens m date 0 with
  | .error e => .error e
  | .ok (m', _) => .ok m'

/-- `add_opening_balances` (src/main.rs lines 153-160): insert the synthetic
`opening_balances` account holding the negated total. -/
def add_opening_balances (m : Balances) : Balances :=
  insertBal m OPENING_BALANCES (-(sumBal m))

/-- One `if !balances.contains_key(k) { insert(k, ZERO) }` block of
`add_default_accounts`. -/
def ensure_account (m : Balances) (k : String) : Balances :=
  if (getBal m k).isSome then m else m ++ [(k, 0)]

/-- `add_default_accounts` (src/main.rs lines 162-176): ensure the three
well-known zero-origin accounts exist. -/
def add_default_accounts (m : Balances) : Balances :=
  ensure_account (ensure_account (ensure_account m SALARY_INCOME) MORTGAGE_INCOME)
    CHARITY_EXPENDITURE

/-- The day loop of `run` (src/main.rs lines 133-151), recursing on the
remaining day count and threading date, balances and accumulator. -/
def run_aux : Nat → List Generator → Date → Balances → ℚ →
    Except StepErr (List (Date × Balances))
  | 0, _, _, _, _ => .ok []
  | n + 1, gens, date, m, acc =>
    let d := next_day date
    match compute_next_day_balances_with_tithe gens m d acc with
    | .error e => .error e
    | .ok (m', acc') =>
      match run_aux n gens d m' acc' with
      | .error e => .error e
      | .ok rest => .ok ((d, m') :: rest)

/-- `run` (src/main.rs lines 133-151): simulate `n` days starting the day
after `cfg.start_date`, with the salary accumulator initialised to zero. -/
def run (cfg : Config) (m : Balances) (n : Nat) :
    Except StepErr (List (Date × Balances)) :=
  run_aux n cfg.transactions cfg.start_date m 0

/-- The driver contract of §4.3: each history entry is dated one calendar
day after its predecessor (the first one day after `d0`), carries exactly
the step function's output for that date, and the accumulator is threaded
between consecutive calls. -/
def Threaded (gens : List Generator) (m0 : Balances) (a0 : ℚ) (d0 : Date) :
    List (Date × Balances) → Prop
  | [] => True
  | (d, m) :: rest =>
    d = next_day d0 ∧
    ∃ a', compute_next_day_balances_with_tithe gens m0 d a0 = .ok (m, a') ∧
      Threaded gens m a' d rest

/-! ### Lemmas about the balance-sheet operations -/

theorem sumBal_cons (k : String) (v : ℚ) (r : Balances) :
    sumBal ((k, v) :: r) = v + sumBal r := by
  simp [sumBal]

theorem adjust_spec (m : Balances) (k : String) (v d : ℚ) (h : getBal m k = some v) :
    ∃ m', adjust m k d = some m' ∧ getBal m' k = some (v + d) ∧
      (∀ k2, k2 ≠ k → getBal m' k2 = getBal m k2) ∧ sumBal m' = sumBal m + d := by
  induction m with
  | nil => simp [getBal] at h
  | cons p r ih =>
    obtain ⟨k', v'⟩ := p
    by_cases hk : k' = k
    · subst hk
      simp [getBal] at h
      subst h
      refine ⟨(k', v' + d) :: r, ?_, ?_, ?_, ?_⟩
      · simp [adjust]
      · simp [getBal]
      · intro k2 hk2
        simp [getBal, Ne.symm hk2]
      · simp [sumBal_cons]; ring
    · simp only [getBal, if_neg hk] at h
      obtain ⟨r', h1, h2, h3, h4⟩ := ih h
      refine ⟨(k', v') :: r', ?_, ?_, ?_, ?_⟩
      · simp [adjust, hk, h1]
      · simp [getBal, hk, h2]
      · intro k2 hk2
        by_cases hk'2 : k' = k2
        · simp [getBal, hk'2]
        · simp [getBal, hk'2, h3 k2 hk2]
      · simp [sumBal_cons, h4]; ring

theorem sum_adjust (m : Balances) (k : String) (d : ℚ) (m' : Balances)
    (h : adjust m k d = some m') : sumBal m' = sumBal m + d := by
  induction m generalizing m' with
  | nil => simp [adjust] at h
  | cons p r ih =>
    obtain ⟨k', v⟩ := p
    by_cases hk : k' = k
    · simp only [adjust, if_pos hk, Option.some.injEq] at h
      subst h
      simp [sumBal_cons]; ring
    · simp only [adjust, if_neg hk, Option.map_eq_some'] at h
      obtain ⟨r', hr, h2⟩ := h
      subst h2
      simp [sumBal_cons, ih r' hr]; ring

theorem except_map_ok {ε α β : Type} (f : α → β) (x : Except ε α) (y : β)
    (h : x.map f = .ok y) : ∃ a, x = .ok a ∧ f a = y := by
  cases x with
  | error e => simp [Except.map] at h
  | ok a =>
    refine ⟨a, rfl, ?_⟩
    simpa [Except.map] using h

theorem app2_sum (m : Balances) (k1 : String) (d1 : ℚ) (k2 : String) (d2 : ℚ)
    (m2 : Balances) (h : app2 m k1 d1 k2 d2 = .ok m2) :
    sumBal m2 = sumBal m + d1 + d2 := by
  unfold app2 at h
  split at h
  · cases h
  next mm h1 =>
    split at h
    · cases h
    next mm2 h2 =>
      cases h
      rw [sum_adjust mm k2 d2 _ h2, sum_adjust m k1 d1 _ h1]

theorem app2_spec (m : Balances) (k1 k2 : String) (v1 v2 d1 d2 : ℚ)
    (hne : k1 ≠ k2) (h1 : getBal m k1 = some v1) (h2 : getBal m k2 = some v2) :
    ∃ m2, app2 m k1 d1 k2 d2 = .ok m2 ∧ getBal m2 k1 = some (v1 + d1) ∧
      getBal m2 k2 = some (v2 + d2) ∧
      ∀ k, k ≠ k1 → k ≠ k2 → getBal m2 k = getBal m k := by
  obtain ⟨m1, ha1, hb1, hc1, _⟩ := adjust_spec m k1 v1 d1 h1
  have h2' : getBal m1 k2 = some v2 := by rw [hc1 k2 (Ne.symm hne)]; exact h2
  obtain ⟨m2, ha2, hb2, hc2, _⟩ := adjust_spec m1 k2 v2 d2 h2'
  refine ⟨m2, ?_, ?_, hb2, ?_⟩
  · simp [app2, ha1, ha2]
  · rw [hc2 k1 hne, hb1]
  · intro k hk1 hk2
    rw [hc2 k hk2, hc1 k hk1]

/-! ### Sum preservation of the generator loop -/

theorem apply_generator_sum (g : Generator) (date : Date) (st st' : Balances × ℚ)
    (h : apply_generator g date st = .ok st') : sumBal st'.1 = sumBal st.1 := by
  obtain ⟨m, acc⟩ := st
  obtain ⟨m', acc'⟩ := st'
  cases g with
  | Mortgage da dd fr to_ =>
    simp only [apply_generator] at h
    split at h
    · split at h
      · cases h
      · split at h
        · cases h
        · split at h
          · split at h
            · split at h
              · obtain ⟨m2, hm2, hf⟩ := except_map_ok _ _ _ h
                cases hf
                have := app2_sum _ _ _ _ _ _ hm2
                simp only [this]
                ring
              · cases h
            · cases h
          · cases h
    · cases h
      rfl
  | Interest rate dy acct inc =>
    simp only [apply_generator] at h
    split at h
    · split at h
      · cases h
      · obtain ⟨m2, hm2, hf⟩ := except_map_ok _ _ _ h
        cases hf
        have := app2_sum _ _ _ _ _ _ hm2
        simp only [this]
        ring
    · cases h
      rfl
  | Salary amount dy to_ =>
    simp only [apply_generator] at h
    split at h
    · obtain ⟨m2, hm2, hf⟩ := except_map_ok _ _ _ h
      cases hf
      have := app2_sum _ _ _ _ _ _ hm2
      simp only [this]
      ring
    · cases h
      rfl
  | Transfer amount dy fr to_ =>
    simp only [apply_generator] at h
    split at h
    · obtain ⟨m2, hm2, hf⟩ := except_map_ok _ _ _ h
      cases hf
      have := app2_sum _ _ _ _ _ _ hm2
      simp only [this]
      ring
    · cases h
      rfl
  | Tithe pct dy fr to_ =>
    simp only [apply_generator] at h
    split at h
    · split at h
      · obtain ⟨m2, hm2, hf⟩ := except_map_ok _ _ _ h
        cases hf
        have := app2_sum _ _ _ _ _ _ hm2
        simp only [this]
        ring
      · cases h
        rfl
    · cases h
      rfl

theorem apply_generators_sum (gens : List Generator) (date : Date) (st st' : Balances × ℚ)
    (h : apply_generators gens date st = .ok st') : sumBal st'.1 = sumBal st.1 := by
  induction gens generalizing st with
  | nil =>
    simp only [apply_generators] at h
    cases h
    rfl
  | cons g gs ih =>
    simp only [apply_generators] at h
    split at h
    · cases h
    next st1 h1 =>
      rw [ih st1 h, apply_generator_sum g date st st1 h1]

/-! ### The daily step and the driver loop -/

theorem step_sum_zero (gens : List Generator) (m : Balances) (date : Date) (acc : ℚ)
    (m' : Balances) (a' : ℚ)
    (h : compute_next_day_balances_with_tithe gens m date acc = .ok (m', a')) :
    sumBal m' = 0 := by
  unfold compute_next_day_balances_with_tithe at h
  split at h
  · cases h
  next st hst =>
    split at h
    · cases h
      assumption
    · cases h

theorem run_aux_spec (n : Nat) (gens : List Generator) (d0 : Date) (m : Balances) (a : ℚ)
    (hist : List (Date × Balances)) (h : run_aux n gens d0 m a = .ok hist) :
    hist.length = n ∧ Threaded gens m a d0 hist := by
  induction n generalizing d0 m a hist with
  | zero =>
    simp only [run_aux] at h
    cases h
    exact ⟨rfl, trivial⟩
  | succ k ih =>
    simp only [run_aux] at h
    split at h
    · cases h
    next m' a' hst =>
      split at h
      · cases h
      next rest hrest =>
        cases h
        obtain ⟨hl, ht⟩ := ih (next_day d0) m' a' rest hrest
        refine ⟨by simp [hl], rfl, a', hst, ht⟩

theorem run_aux_zero (n : Nat) (gens : List Generator) (d0 : Date) (m : Balances) (a : ℚ)
    (hist : List (Date × Balances)) (h : run_aux n gens d0 m a = .ok hist) :
    ∀ e ∈ hist, sumBal e.2 = 0 := by
  induction n generalizing d0 m a hist with
  | zero =>
    simp only [run_aux] at h
    cases h
    intro e he
    cases he
  | succ k ih =>
    simp only [run_aux] at h
    split at h
    · cases h
    next m' a' hst =>
      split at h
      · cases h
      next rest hrest =>
        cases h
        intro e he
        rcases List.mem_cons.mp he with he1 | he2
        · subst he1
          exact step_sum_zero _ _ _ _ _ _ hst
        · exact ih (next_day d0) m' a' rest hrest e he2

theorem apply_generator_day_congr (g : Generator) (d1 d2 : Date) (hd : d1.day = d2.day)
    (st : Balances × ℚ) : apply_generator g d1 st = apply_generator g d2 st := by
  obtain ⟨m, acc⟩ := st
  cases g <;> simp only [apply_generator, hd]

theorem apply_generators_day_congr (gens : List Generator) (d1 d2 : Date)
    (hd : d1.day = d2.day) (st : Balances × ℚ) :
    apply_generators gens d1 st = apply_generators gens d2 st := by
  induction gens generalizing st with
  | nil => rfl
  | cons g gs ih =>
    simp only [apply_generators, apply_generator_day_congr g d1 d2 hd st]
    split
    · rfl
    · exact ih _

theorem step_day_congr (gens : List Generator) (m : Balances) (d1 d2 : Date)
    (hd : d1.day = d2.day) (acc : ℚ) :
    compute_next_day_balances_with_tithe gens m d1 acc =
      compute_next_day_balances_with_tithe gens m d2 acc := by
  unfold compute_next_day_balances_with_tithe
  rw [apply_generators_day_congr gens d1 d2 hd]

/-! ### Lemmas about the opening-balance normaliser -/

theorem getBal_append_some (m l : Balances) (k : String) (v : ℚ)
    (h : getBal m k = some v) : getBal (m ++ l) k = some v := by
  induction m with
  | nil => simp [getBal] at h
  | cons p r ih =>
    obtain ⟨k', v'⟩ := p
    by_cases hk : k' = k
    · simp only [getBal, if_pos hk] at h ⊢
      exact h
    · simp only [getBal, if_neg hk] at h ⊢
      exact ih h

theorem getBal_append_none (m l : Balances) (k : String)
    (h : getBal m k = none) : getBal (m ++ l) k = getBal l k := by
  induction m with
  | nil => simp [getBal]
  | cons p r ih =>
    obtain ⟨k', v'⟩ := p
    by_cases hk : k' = k
    · simp [getBal, hk] at h
    · simp only [getBal, if_neg hk] at h ⊢
      exact ih h

theorem getBal_insertBal_self (m : Balances) (k : String) (v : ℚ) :
    getBal (insertBal m k v) k = some v := by
  induction m with
  | nil => simp [insertBal, getBal]
  | cons p r ih =>
    obtain ⟨k', v'⟩ := p
    by_cases hk : k' = k
    · simp [insertBal, getBal, hk]
    · simp [insertBal, getBal, hk, ih]

theorem getBal_insertBal_other (m : Balances) (k k2 : String) (v : ℚ) (hne : k2 ≠ k) :
    getBal (insertBal m k v) k2 = getBal m k2 := by
  induction m with
  | nil => simp [insertBal, getBal, Ne.symm hne]
  | cons p r ih =>
    obtain ⟨k', v'⟩ := p
    by_cases hk : k' = k
    · subst hk
      simp [insertBal, getBal, Ne.symm hne]
    · by_cases hk2 : k' = k2
      · simp [insertBal, getBal, hk, hk2, hne]
      · simp [insertBal, getBal, hk, hk2, ih]

theorem sum_insertBal_none (m : Balances) (k : String) (v : ℚ)
    (h : getBal m k = none) : sumBal (insertBal m k v) = sumBal m + v := by
  induction m with
  | nil => simp [insertBal, sumBal]
  | cons p r ih =>
    obtain ⟨k', v'⟩ := p
    by_cases hk : k' = k
    · simp [getBal, hk] at h
    · simp only [getBal, if_neg hk] at h
      simp only [insertBal, if_neg hk, sumBal_cons, ih h]
      ring

theorem ensure_account_self (m : Balances) (k : String) :
    (getBal (ensure_account m k) k).isSome := by
  unfold ensure_account
  split
  · assumption
  next h =>
    rw [Option.not_isSome_iff_eq_none] at h
    rw [getBal_append_none m _ k h]
    simp [getBal]

theorem ensure_account_mono (m : Balances) (k k2 : String)
    (h : (getBal m k2).isSome) : (getBal (ensure_account m k) k2).isSome := by
  unfold ensure_account
  split
  · exact h
  · obtain ⟨v, hv⟩ := Option.isSome_iff_exists.mp h
    rw [getBal_append_some m _ k2 v hv]
    rfl

theorem ensure_account_none (m : Balances) (k k2 : String) (hne : k2 ≠ k)
    (h : getBal m k2 = none) : getBal (ensure_account m k) k2 = none := by
  unfold ensure_account
  split
  · exact h
  · rw [getBal_append_none m _ k2 h]
    simp [getBal, Ne.symm hne]

/-! ### C2: the opening-balance normaliser -/

/-- C2 (counterexample): the claim "for every raw balance map ... the
normalised map's values sum to exactly zero" is false when the raw map
already binds `opening_balances`: normalising `{opening_balances: 5}`
yields a map whose values sum to −5. -/
theorem normaliser_nonzero_on_preexisting_opening :
    sumBal (add_opening_balances (add_default_accounts [(OPENING_BALANCES, 5)])) ≠ 0 := by
  with_unfolding_all decide

/-- C2 (amended): for every raw balance map in which no `opening_balances`
account is present, the normaliser (defaults first, then the synthetic
opening-balances insertion) yields a map that contains `salary_income`,
`mortgage_income`, `charity_expenditure` and `opening_balances`, and whose
values sum to exactly zero.  (The embedding is purely functional, so the
input map itself is never mutated.) -/
theorem normaliser_zero_total (raw : Balances)
    (h : getBal raw OPENING_BALANCES = none) :
    (getBal (add_opening_balances (add_default_accounts raw)) SALARY_INCOME).isSome ∧
    (getBal (add_opening_balances (add_default_accounts raw)) MORTGAGE_INCOME).isSome ∧
    (getBal (add_opening_balances (add_default_accounts raw)) CHARITY_EXPENDITURE).isSome ∧
    (getBal (add_opening_balances (add_default_accounts raw)) OPENING_BALANCES).isSome ∧
    sumBal (add_opening_balances (add_default_accounts raw)) = 0 := by
  have hdef : getBal (add_default_accounts raw) OPENING_BALANCES = none := by
    unfold add_default_accounts
    apply ensure_account_none _ _ _ (by decide)
    apply ensure_account_none _ _ _ (by decide)
    apply ensure_account_none _ _ _ (by decide)
    exact h
  have hs : (getBal (add_default_accounts raw) SALARY_INCOME).isSome := by
    unfold add_default_accounts
    apply ensure_account_mono
    apply ensure_account_mono
    exact ensure_account_self raw SALARY_INCOME
  have hm : (getBal (add_default_accounts raw) MORTGAGE_INCOME).isSome := by
    unfold add_default_accounts
    apply ensure_account_mono
    exact ensure_account_self _ MORTGAGE_INCOME
  have hc : (getBal (add_default_accounts raw) CHARITY_EXPENDITURE).isSome :=
    ensure_account_self _ CHARITY_EXPENDITURE
  refine ⟨?_, ?_, ?_, ?_, ?_⟩
  · unfold add_opening_balances
    rw [getBal_insertBal_other _ _ _ _ (by decide)]
    exact hs
  · unfold add_opening_balances
    rw [getBal_insertBal_other _ _ _ _ (by decide)]
    exact hm
  · unfold add_opening_balances
    rw [getBal_insertBal_other _ _ _ _ (by decide)]
    exact hc
  · unfold add_opening_balances
    rw [getBal_insertBal_self]
    rfl
  · unfold add_opening_balances
    rw [sum_insertBal_none _ _ _ hdef]
    ring

/-- C2 (witness): the amended statement instantiated on `{main: 7}`. -/
theorem normaliser_zero_total_case :
    (getBal (add_opening_balances (add_default_accounts [("main", 7)])) SALARY_INCOME).isSome ∧
    (getBal (add_opening_balances (add_default_accounts [("main", 7)])) MORTGAGE_INCOME).isSome ∧
    (getBal (add_opening_balances (add_default_accounts [("main", 7)])) CHARITY_EXPENDITURE).isSome ∧
    (getBal (add_opening_balances (add_default_accounts [("main", 7)])) OPENING_BALANCES).isSome ∧
    sumBal (add_opening_balances (add_default_accounts [("main", 7)])) = 0 :=
  normaliser_zero_total [("main", 7)] (by with_unfolding_all decide)

/-! ### C3 and C5: the mortgage generator -/

/-- C3 (counterexample): with a negative configured `deduction_amount` the
claim predicts a moved amount of `max(0, min(...)) = 0` and an unchanged
balance sheet, but the code trips its `actual_deduction <= deduction_amount`
assertion and panics instead of producing any balance sheet. -/
theorem mortgage_negative_amount_panics :
    apply_generator (Generator.Mortgage (-10) 5 MAIN_ACCOUNT MORTGAGE_ACCOUNT) ⟨2025, 1, 5⟩
        ([(MAIN_ACCOUNT, 100), (MORTGAGE_ACCOUNT, -50)], 0) =
      .error .deduction_exceeds ∧
    apply_generator (Generator.Mortgage (-10) 5 MAIN_ACCOUNT MORTGAGE_ACCOUNT) ⟨2025, 1, 5⟩
        ([(MAIN_ACCOUNT, 100), (MORTGAGE_ACCOUNT, -50)], 0) ≠
      .ok ([(MAIN_ACCOUNT, 100), (MORTGAGE_ACCOUNT, -50)], 0) := by
  constructor <;> with_unfolding_all decide

/-- C3 (amended): provided additionally that the configured
`deduction_amount` is nonnegative, for every balance sheet in which the
mortgage's accounts exist and the `to` balance is ≤ 0: on a day whose
day-of-month equals `deduction_day` the amount moved is
`max(0, min(deduction_amount, −to_balance, from_balance))` — `from` is
debited and `to` credited by exactly that amount and no other account
changes — and on any other day-of-month the generator changes nothing. -/
theorem mortgage_day_behaviour (da : ℚ) (dd : Nat) (fr to_ : String) (m : Balances)
    (acc fb tb : ℚ) (date : Date) (hne : fr ≠ to_)
    (hf : getBal m fr = some fb) (ht : getBal m to_ = some tb)
    (htb : tb ≤ 0) (hda : 0 ≤ da) :
    (date.day = dd →
      ∃ m2, apply_generator (.Mortgage da dd fr to_) date (m, acc) = .ok (m2, acc) ∧
        getBal m2 fr = some (fb - max 0 (min da (min (-tb) fb))) ∧
        getBal m2 to_ = some (tb + max 0 (min da (min (-tb) fb))) ∧
        ∀ k, k ≠ fr → k ≠ to_ → getBal m2 k = getBal m k) ∧
    (date.day ≠ dd →
      apply_generator (.Mortgage da dd fr to_) date (m, acc) = .ok (m, acc)) := by
  have hEq : max (min (min da (-tb)) fb) 0 = max 0 (min da (min (-tb) fb)) := by
    rw [min_assoc, max_comm]
  constructor
  · intro hday
    have h1 : max (min (min da (-tb)) fb) 0 ≤ da :=
      max_le (le_trans (min_le_left _ _) (min_le_left _ _)) hda
    have h2 : (0 : ℚ) ≤ max (min (min da (-tb)) fb) 0 := le_max_right _ _
    obtain ⟨m2, ha, hb, hc, hd⟩ :=
      app2_spec m fr to_ fb tb (-(max (min (min da (-tb)) fb) 0))
        (max (min (min da (-tb)) fb) 0) hne hf ht
    refine ⟨m2, ?_, ?_, ?_, hd⟩
    · simp [apply_generator, hday, hf, ht, htb, h1, h2, ha, Except.map]
    · rw [hb, hEq]
      simp [sub_eq_add_neg]
    · rw [hc, hEq]
  · intro hday
    simp [apply_generator, hday]

set_option maxRecDepth 2000 in
/-- C3 (witness): the amended statement fired on a concrete sheet:
main 100, mortgage −500000, deduction 500 on day 5 moves 100. -/
theorem mortgage_day_behaviour_case :
    (apply_generator (Generator.Mortgage 500 5 "main" "mortgage") ⟨2025, 1, 5⟩
        ([("main", 100), ("mortgage", -500000)], 0)).map
      (fun st => (getBal st.1 "main", getBal st.1 "mortgage")) =
      .ok (some 0, some (-499900)) := by
  obtain ⟨m2, ha, hb, hc, _⟩ :=
    (mortgage_day_behaviour 500 5 "main" "mortgage" [("main", 100), ("mortgage", -500000)]
      0 100 (-500000) ⟨2025, 1, 5⟩ (by decide) (by simp [getBal]) (by simp [getBal])
      (by norm_num) (by norm_num)).1 rfl
  norm_num at hb hc
  rw [ha]
  simp [Except.map, hb, hc]

/-- C5 (counterexample): main 100 < deduction 500, liability only −50: the
claim predicts a deduction of exactly 100 leaving `from` at zero, but the
code moves only 50 (the remaining liability) and `from` ends at 50. -/
theorem mortgage_partial_when_liability_smaller :
    apply_generator (Generator.Mortgage 500 5 "main" "mortgage") ⟨2025, 1, 5⟩
        ([("main", 100), ("mortgage", -50)], 0) =
      .ok ([("main", 50), ("mortgage", 0)], 0) ∧
    getBal [("main", (50 : ℚ)), ("mortgage", 0)] "main" ≠ some 0 := by
  constructor <;> with_unfolding_all decide

/-- C5 (amended): when a mortgage fires with `0 ≤ from_balance <
deduction_amount` and the remaining liability `−to_balance` is at least the
`from` balance, the actual deduction equals exactly the `from` balance: the
`from` account reaches exactly zero (so it never goes negative). -/
theorem mortgage_exhausts_from_balance (da : ℚ) (dd : Nat) (fr to_ : String) (m : Balances)
    (acc fb tb : ℚ) (date : Date) (hne : fr ≠ to_) (hday : date.day = dd)
    (hf : getBal m fr = some fb) (ht : getBal m to_ = some tb) (htb : tb ≤ 0)
    (h0 : 0 ≤ fb) (hlt : fb < da) (hle : fb ≤ -tb) :
    ∃ m2, apply_generator (.Mortgage da dd fr to_) date (m, acc) = .ok (m2, acc) ∧
      getBal m2 fr = some 0 ∧ getBal m2 to_ = some (tb + fb) := by
  have hact : max (min (min da (-tb)) fb) 0 = fb := by
    rw [min_eq_right (le_min (le_of_lt hlt) hle), max_eq_left h0]
  obtain ⟨m2, ha, hb, hc, _⟩ := app2_spec m fr to_ fb tb (-fb) fb hne hf ht
  refine ⟨m2, ?_, ?_, ?_⟩
  · simp [apply_generator, hday, hf, ht, htb, hact, le_of_lt hlt, h0, ha, Except.map]
  · rw [hb]
    norm_num
  · exact hc

set_option maxRecDepth 2000 in
/-- C5 (witness): from 200 < deduction 300 against liability −1000:
`from` ends at exactly zero. -/
theorem mortgage_exhausts_from_balance_case :
    (apply_generator (Generator.Mortgage 300 5 "main" "loan") ⟨2025, 1, 5⟩
        ([("main", 200), ("loan", -1000)], 0)).map
      (fun st => (getBal st.1 "main", getBal st.1 "loan")) =
      .ok (some 0, some (-800)) := by
  obtain ⟨m2, ha, hb, hc⟩ :=
    mortgage_exhausts_from_balance 300 5 "main" "loan" [("main", 200), ("loan", -1000)]
      0 200 (-1000) ⟨2025, 1, 5⟩ (by decide) rfl (by simp [getBal]) (by simp [getBal])
      (by norm_num) (by norm_num) (by norm_num) (by norm_num)
  norm_num at hc
  rw [ha]
  simp [Except.map, hb, hc]

/-! ### C6: the interest generator -/

/-- The floor embedded in `round_half_even` agrees with the mathematical floor. -/
theorem qfloor_eq_floor (x : ℚ) : qfloor x = ⌊x⌋ := by
  rw [qfloor, Int.fdiv_eq_ediv _ (Int.natCast_nonneg x.den), Rat.floor_def]

theorem round_half_even_of_lt (x : ℚ) (h : x - ⌊x⌋ < 1/2) : round_half_even x = ⌊x⌋ := by
  simp only [round_half_even, qfloor_eq_floor]
  rw [if_pos h]

theorem round_half_even_of_gt (x : ℚ) (h : 1/2 < x - ⌊x⌋) : round_half_even x = ⌊x⌋ + 1 := by
  simp only [round_half_even, qfloor_eq_floor]
  rw [if_neg (by linarith), if_pos h]

theorem round_dp2_eq_lo (x : ℚ) (n : ℤ) (h1 : (n : ℚ) ≤ x * 100)
    (h2 : x * 100 - (n : ℚ) < 1/2) : round_dp2 x = (n : ℚ) / 100 := by
  have hf : ⌊x * 100⌋ = n := Int.floor_eq_iff.mpr ⟨h1, by linarith⟩
  rw [round_dp2, round_half_even_of_lt _ (by rw [hf]; exact h2), hf]

theorem round_dp2_eq_hi (x : ℚ) (n : ℤ) (h1 : 1/2 < x * 100 - (n : ℚ))
    (h2 : x * 100 < (n : ℚ) + 1) : round_dp2 x = ((n : ℚ) + 1) / 100 := by
  have hf : ⌊x * 100⌋ = n := Int.floor_eq_iff.mpr ⟨by linarith, h2⟩
  rw [round_dp2, round_half_even_of_gt _ (by rw [hf]; exact h1), hf]
  push_cast
  ring

/-- Rounding the zero amount gives zero. -/
theorem round_dp2_zero : round_dp2 0 = 0 := by
  rw [round_dp2_eq_lo 0 0 (by norm_num) (by norm_num)]
  norm_num

/-- C6: an interest generator transfers value exactly when the day-of-month
equals its configured day and its rate is nonzero; it then credits `account`
and debits `income_account` by `round_dp2 (balance * rate / 1200)`, leaving
every other account unchanged; otherwise (wrong day or zero rate) it changes
nothing. -/
theorem interest_behaviour (rate : ℚ) (dy : Nat) (acct inc : String) (m : Balances)
    (acc b ib : ℚ) (date : Date) (hne : acct ≠ inc)
    (hb : getBal m acct = some b) (hi : getBal m inc = some ib) :
    (date.day = dy → rate ≠ 0 →
      ∃ m2, apply_generator (.Interest rate dy acct inc) date (m, acc) = .ok (m2, acc) ∧
        getBal m2 acct = some (b + round_dp2 (b * rate / 1200)) ∧
        getBal m2 inc = some (ib - round_dp2 (b * rate / 1200)) ∧
        ∀ k, k ≠ acct → k ≠ inc → getBal m2 k = getBal m k) ∧
    (¬(date.day = dy ∧ rate ≠ 0) →
      apply_generator (.Interest rate dy acct inc) date (m, acc) = .ok (m, acc)) := by
  have hr : b * (rate / 12 / 100) = b * rate / 1200 := by ring
  constructor
  · intro hday hrate
    obtain ⟨m2, ha, hb2, hc2, hd2⟩ :=
      app2_spec m acct inc b ib (round_dp2 (b * rate / 1200))
        (-(round_dp2 (b * rate / 1200))) hne hb hi
    refine ⟨m2, ?_, hb2, ?_, hd2⟩
    · simp [apply_generator, hday, hrate, hb, hr, ha, Except.map]
    · rw [hc2]
      simp [sub_eq_add_neg]
  · intro hcond
    simp only [apply_generator, if_neg hcond]

/-- C6 (witness): 6% interest on a −500000 balance on its firing day moves
round(−500000 × 6/1200, 2) = −2500 from the income account to the account. -/
theorem interest_behaviour_case :
    (apply_generator (Generator.Interest 6 10 "mortgage" "mortgage_income") ⟨2025, 1, 10⟩
        ([("mortgage", -500000), ("mortgage_income", 0)], 0)).map
      (fun st => (getBal st.1 "mortgage", getBal st.1 "mortgage_income")) =
      .ok (some (-502500), some 2500) ∧
    apply_generator (Generator.Interest 0 10 "mortgage" "mortgage_income") ⟨2025, 1, 10⟩
        ([("mortgage", -500000), ("mortgage_income", 0)], 0) =
      .ok ([("mortgage", -500000), ("mortgage_income", 0)], 0) := by
  constructor
  · obtain ⟨m2, ha, hb2, hc2, _⟩ :=
      (interest_behaviour 6 10 "mortgage" "mortgage_income"
        [("mortgage", -500000), ("mortgage_income", 0)] 0 (-500000) 0 ⟨2025, 1, 10⟩
        (by decide) (by simp [getBal]) (by simp [getBal])).1 rfl (by norm_num)
    have he : round_dp2 ((-500000 : ℚ) * 6 / 1200) = -2500 := by
      rw [round_dp2_eq_lo _ (-250000) (by norm_num) (by norm_num)]
      norm_num
    rw [he] at hb2 hc2
    norm_num at hb2 hc2
    rw [ha]
    simp [Except.map, hb2, hc2]
  · exact (interest_behaviour 0 10 "mortgage" "mortgage_income"
      [("mortgage", -500000), ("mortgage_income", 0)] 0 (-500000) 0 ⟨2025, 1, 10⟩
      (by decide) (by simp [getBal]) (by simp [getBal])).2 (by simp)

/-! ### C7: the tithe generator -/

/-- C7: on its firing day a tithe generator computes
`round_dp2 (accumulator * percentage / 100)`; when that amount is positive
it debits `from`, credits `to` and resets the accumulator to zero; when the
amount is zero, or the accumulator is zero, it changes no balance and
leaves the accumulator unchanged. -/
theorem tithe_behaviour (pct : ℚ) (dy : Nat) (fr to_ : String) (m : Balances)
    (acc fb tb : ℚ) (date : Date) (hne : fr ≠ to_) (hday : date.day = dy)
    (hf : getBal m fr = some fb) (ht : getBal m to_ = some tb) :
    (0 < round_dp2 (acc * pct / 100) →
      ∃ m2, apply_generator (.Tithe pct dy fr to_) date (m, acc) = .ok (m2, 0) ∧
        getBal m2 fr = some (fb - round_dp2 (acc * pct / 100)) ∧
        getBal m2 to_ = some (tb + round_dp2 (acc * pct / 100)) ∧
        ∀ k, k ≠ fr → k ≠ to_ → getBal m2 k = getBal m k) ∧
    (round_dp2 (acc * pct / 100) = 0 ∨ acc = 0 →
      apply_generator (.Tithe pct dy fr to_) date (m, acc) = .ok (m, acc)) := by
  constructor
  · intro hpos
    obtain ⟨m2, ha, hb2, hc2, hd2⟩ :=
      app2_spec m fr to_ fb tb (-(round_dp2 (acc * pct / 100)))
        (round_dp2 (acc * pct / 100)) hne hf ht
    refine ⟨m2, ?_, ?_, hc2, hd2⟩
    · simp [apply_generator, hday, hpos, ha, Except.map]
    · rw [hb2]
      simp [sub_eq_add_neg]
  · intro hc
    have ht0 : ¬ 0 < round_dp2 (acc * pct / 100) := by
      rcases hc with h | h
      · rw [h]
        exact lt_irrefl 0
      · subst h
        have hz : (0 : ℚ) * pct / 100 = 0 := by ring
        rw [hz, round_dp2_zero]
        exact lt_irrefl 0
    simp [apply_generator, hday, ht0]

/-- C7 (witness): a 10% tithe over an accumulator of 2000 moves 200 and
resets the accumulator; over a zero accumulator nothing happens. -/
theorem tithe_behaviour_case :
    (apply_generator (Generator.Tithe 10 10 "main" "charity_expenditure") ⟨2025, 1, 10⟩
        ([("main", 12000), ("charity_expenditure", 0)], 2000)).map
      (fun st => (getBal st.1 "main", getBal st.1 "charity_expenditure", st.2)) =
      .ok (some 11800, some 200, 0) ∧
    apply_generator (Generator.Tithe 10 10 "main" "charity_expenditure") ⟨2025, 1, 10⟩
        ([("main", 12000), ("charity_expenditure", 0)], 0) =
      .ok ([("main", 12000), ("charity_expenditure", 0)], 0) := by
  have he : round_dp2 ((2000 : ℚ) * 10 / 100) = 200 := by
    rw [round_dp2_eq_lo _ 20000 (by norm_num) (by norm_num)]
    norm_num
  constructor
  · obtain ⟨m2, ha, hb2, hc2, _⟩ :=
      (tithe_behaviour 10 10 "main" "charity_expenditure"
        [("main", 12000), ("charity_expenditure", 0)] 2000 12000 0 ⟨2025, 1, 10⟩
        (by decide) rfl (by simp [getBal]) (by simp [getBal])).1 (by rw [he]; norm_num)
    rw [he] at hb2 hc2
    norm_num at hb2 hc2
    rw [ha]
    simp [Except.map, hb2, hc2]
  · exact (tithe_behaviour 10 10 "main" "charity_expenditure"
      [("main", 12000), ("charity_expenditure", 0)] 0 12000 0 ⟨2025, 1, 10⟩
      (by decide) rfl (by simp [getBal]) (by simp [getBal])).2 (Or.inr rfl)

/-! ### C9: the positive-liability check -/

/-- The only errors a double mutation can raise are missing accounts. -/
theorem app2_map_ne {α : Type} (f : Balances → α) (m : Balances) (k1 : String) (d1 : ℚ)
    (k2 : String) (d2 : ℚ) (e : StepErr) (he : ∀ k, e ≠ .account_missing k) :
    (app2 m k1 d1 k2 d2).map f ≠ .error e := by
  unfold app2
  split
  · intro hcon
    simp only [Except.map, Except.error.injEq] at hcon
    exact he k1 hcon.symm
  · split
    · intro hcon
      simp only [Except.map, Except.error.injEq] at hcon
      exact he k2 hcon.symm
    · intro hcon
      simp [Except.map] at hcon

/-- C9: when a mortgage generator fires against a `to` account whose balance
is strictly positive, the step aborts — neither the generator dispatch nor
the single-generator daily step produces a balance sheet; and whenever the
firing generator's `to` balance is ≤ 0 this positive-liability check never
fails (any abort has a different cause). -/
theorem mortgage_positive_liability_fatal (da : ℚ) (dd : Nat) (fr to_ : String)
    (m : Balances) (acc tb : ℚ) (date : Date) (hday : date.day = dd)
    (ht : getBal m to_ = some tb) :
    (0 < tb →
      (∀ st', apply_generator (.Mortgage da dd fr to_) date (m, acc) ≠ .ok st') ∧
      (∀ st', compute_next_day_balances_with_tithe [.Mortgage da dd fr to_] m date acc ≠
        .ok st')) ∧
    (tb ≤ 0 →
      apply_generator (.Mortgage da dd fr to_) date (m, acc) ≠ .error .mortgage_positive) := by
  constructor
  · intro hpos
    have hng : ¬ tb ≤ 0 := not_le.mpr hpos
    have happ : ∀ st', apply_generator (.Mortgage da dd fr to_) date (m, acc) ≠ .ok st' := by
      intro st' hcon
      cases hfr : getBal m fr with
      | none => simp [apply_generator, hday, hfr] at hcon
      | some fb => simp [apply_generator, hday, hfr, ht, hng] at hcon
    refine ⟨happ, ?_⟩
    intro st' hcon
    unfold compute_next_day_balances_with_tithe at hcon
    split at hcon
    · cases hcon
    next m1 a1 hst1 =>
      simp only [apply_generators] at hst1
      split at hst1
      · cases hst1
      next st2 h2 =>
        exact happ st2 h2
  · intro hle
    cases hfr : getBal m fr with
    | none =>
      intro hcon
      simp [apply_generator, hday, hfr] at hcon
    | some fb =>
      simp only [apply_generator, hday, hfr, ht, if_pos hle, if_true, eq_self_iff_true]
      split
      · split
        · exact app2_map_ne _ _ _ _ _ _ _ (by intro k hc; cases hc)
        · simp
      · simp

/-- C9 (witness): a mortgage firing against a positive `mortgage` balance
(50) never yields a new state. -/
theorem mortgage_positive_liability_fatal_case :
    apply_generator (Generator.Mortgage 500 5 "main" "mortgage") ⟨2025, 1, 5⟩
        ([("main", 100), ("mortgage", 50)], 0) ≠
      .ok ([("main", 100), ("mortgage", 50)], 0) :=
  ((mortgage_positive_liability_fatal 500 5 "main" "mortgage" [("main", 100), ("mortgage", 50)]
      0 50 ⟨2025, 1, 5⟩ rfl (by simp [getBal])).1 (by norm_num)).1 _

/-! ### C10: sum preservation makes the zero-sum failure branch unreachable -/

/-- A single generator dispatch never raises the end-of-step zero-sum error. -/
theorem apply_generator_no_total (g : Generator) (date : Date) (st : Balances × ℚ) :
    apply_generator g date st ≠ .error .nonzero_total := by
  obtain ⟨m, acc⟩ := st
  have hna : ∀ k, StepErr.nonzero_total ≠ StepErr.account_missing k := by
    intro k hc
    cases hc
  cases g with
  | Mortgage da dd fr to_ =>
    simp only [apply_generator]
    split
    · split
      · simp
      · split
        · simp
        · split
          · split
            · split
              · exact app2_map_ne _ _ _ _ _ _ _ hna
              · simp
            · simp
          · simp
    · simp
  | Interest rate dy acct inc =>
    simp only [apply_generator]
    split
    · split
      · simp
      · exact app2_map_ne _ _ _ _ _ _ _ hna
    · simp
  | Salary amount dy to_ =>
    simp only [apply_generator]
    split
    · exact app2_map_ne _ _ _ _ _ _ _ hna
    · simp
  | Transfer amount dy fr to_ =>
    simp only [apply_generator]
    split
    · exact app2_map_ne _ _ _ _ _ _ _ hna
    · simp
  | Tithe pct dy fr to_ =>
    simp only [apply_generator]
    split
    · split
      · exact app2_map_ne _ _ _ _ _ _ _ hna
      · simp
    · simp

/-- The generator loop never raises the end-of-step zero-sum error. -/
theorem apply_generators_no_total (gens : List Generator) (date : Date) (st : Balances × ℚ) :
    apply_generators gens date st ≠ .error .nonzero_total := by
  induction gens generalizing st with
  | nil => simp [apply_generators]
  | cons g gs ih =>
    simp only [apply_generators]
    split
    next e heq =>
      intro hcon
      cases hcon
      exact apply_generator_no_total g date st heq
    next st1 _ => exact ih st1

/-- C10: whenever the generator loop completes it preserves the sum of all
balances exactly; hence on an input sheet already summing to zero the daily
step returns the loop's result unchanged, and the "balances do not sum to
zero" failure branch is unreachable. -/
theorem generator_loop_preserves_sum (gens : List Generator) (date : Date) (m : Balances)
    (acc : ℚ) (m' : Balances) (a' : ℚ) :
    (apply_generators gens date (m, acc) = .ok (m', a') → sumBal m' = sumBal m) ∧
    (sumBal m = 0 → apply_generators gens date (m, acc) = .ok (m', a') →
      compute_next_day_balances_with_tithe gens m date acc = .ok (m', a')) ∧
    (sumBal m = 0 →
      compute_next_day_balances_with_tithe gens m date acc ≠ .error .nonzero_total) := by
  refine ⟨?_, ?_, ?_⟩
  · intro h
    exact apply_generators_sum gens date (m, acc) (m', a') h
  · intro h0 h
    have hz : sumBal m' = 0 := by
      rw [apply_generators_sum gens date (m, acc) (m', a') h]
      exact h0
    simp [compute_next_day_balances_with_tithe, h, hz]
  · intro h0
    unfold compute_next_day_balances_with_tithe
    split
    next e heq =>
      intro hcon
      cases hcon
      exact apply_generators_no_total gens date (m, acc) heq
    next m1 a1 heq =>
      have hz : sumBal m1 = 0 := by
        rw [apply_generators_sum gens date (m, acc) (m1, a1) heq]
        exact h0
      rw [if_pos hz]
      intro hcon
      cases hcon

/-- C10 (witness): a salary firing preserves the (zero) total, so the step
succeeds on a sheet summing to zero. -/
theorem generator_loop_preserves_sum_case :
    compute_next_day_balances_with_tithe [Generator.Salary 10 2 "a"]
        [("a", 5), ("salary_income", -5)] ⟨2025, 1, 2⟩ 0 =
      .ok ([("a", 15), ("salary_income", -15)], 10) := by
  have hloop : apply_generators [Generator.Salary 10 2 "a"] ⟨2025, 1, 2⟩
      (([("a", 5), ("salary_income", -5)] : Balances), 0) =
      .ok ([("a", 15), ("salary_income", -15)], 10) := by
    have hne : ("a" : String) ≠ "salary_income" := by decide
    norm_num [apply_generators, apply_generator, app2, adjust, getBal, SALARY_INCOME, hne,
      Except.map]
  exact (generator_loop_preserves_sum [Generator.Salary 10 2 "a"]
    ⟨2025, 1, 2⟩ [("a", 5), ("salary_income", -5)] 0
    [("a", 15), ("salary_income", -15)] 10).2.1 (by norm_num [sumBal]) hloop

/-! ### C1: the zero-sum invariant along a whole run -/

/-- One unfolding step of the driver loop, for chaining concrete runs. -/
theorem run_aux_step (n : Nat) (gens : List Generator) (d0 d1 : Date) (m : Balances)
    (a : ℚ) (m' : Balances) (a' : ℚ) (rest : List (Date × Balances))
    (hd : next_day d0 = d1)
    (h1 : compute_next_day_balances_with_tithe gens m d1 a = .ok (m', a'))
    (h2 : run_aux n gens d1 m' a' = .ok rest) :
    run_aux (n + 1) gens d0 m a = .ok ((d1, m') :: rest) := by
  subst hd
  simp only [run_aux, h1, h2]

/-- C1: for every configuration and every opening sheet produced by the
normaliser, when the driver completes, every recorded day's balance sheet
sums to exactly zero. -/
theorem run_history_sums_to_zero (cfg : Config) (raw : Balances) (n : Nat)
    (hist : List (Date × Balances))
    (h : run cfg (add_opening_balances (add_default_accounts raw)) n = .ok hist) :
    ∀ e ∈ hist, sumBal e.2 = 0 := by
  unfold run at h
  exact run_aux_zero n cfg.transactions cfg.start_date _ 0 hist h

/-- C1 (witness): a one-day run of the empty generator list over the
normalised sheet `{main: 3}`; the recorded day sums to zero. -/
theorem run_history_sums_to_zero_case :
    sumBal [("main", (3 : ℚ)), ("salary_income", 0), ("mortgage_income", 0),
      ("charity_expenditure", 0), ("opening_balances", -3)] = 0 := by
  have e1 : ("main" : String) ≠ "salary_income" := by decide
  have e2 : ("main" : String) ≠ "mortgage_income" := by decide
  have e3 : ("main" : String) ≠ "charity_expenditure" := by decide
  have e4 : ("main" : String) ≠ "opening_balances" := by decide
  have e5 : ("salary_income" : String) ≠ "mortgage_income" := by decide
  have e6 : ("salary_income" : String) ≠ "charity_expenditure" := by decide
  have e7 : ("salary_income" : String) ≠ "opening_balances" := by decide
  have e8 : ("mortgage_income" : String) ≠ "charity_expenditure" := by decide
  have e9 : ("mortgage_income" : String) ≠ "opening_balances" := by decide
  have e10 : ("charity_expenditure" : String) ≠ "opening_balances" := by decide
  have hbal : add_opening_balances (add_default_accounts [("main", (3 : ℚ))]) =
      [("main", 3), ("salary_income", 0), ("mortgage_income", 0),
        ("charity_expenditure", 0), ("opening_balances", -3)] := by
    norm_num [add_opening_balances, add_default_accounts, ensure_account, insertBal, getBal,
      sumBal, SALARY_INCOME, MORTGAGE_INCOME, CHARITY_EXPENDITURE, OPENING_BALANCES,
      e1, e2, e3, e4, e5, e6, e7, e8, e9, e10]
  have hstep : compute_next_day_balances_with_tithe []
      [("main", (3 : ℚ)), ("salary_income", 0), ("mortgage_income", 0),
        ("charity_expenditure", 0), ("opening_balances", -3)] ⟨2025, 1, 2⟩ 0 =
      .ok ([("main", 3), ("salary_income", 0), ("mortgage_income", 0),
        ("charity_expenditure", 0), ("opening_balances", -3)], 0) := by
    norm_num [compute_next_day_balances_with_tithe, apply_generators, sumBal]
  have hrun : run ⟨[], ⟨2025, 1, 1⟩⟩
      (add_opening_balances (add_default_accounts [("main", (3 : ℚ))])) 1 =
      .ok [(⟨2025, 1, 2⟩, [("main", 3), ("salary_income", 0), ("mortgage_income", 0),
        ("charity_expenditure", 0), ("opening_balances", -3)])] := by
    rw [hbal]
    show run_aux (0 + 1) [] ⟨2025, 1, 1⟩ _ 0 = _
    exact run_aux_step 0 [] ⟨2025, 1, 1⟩ ⟨2025, 1, 2⟩ _ 0 _ 0 [] (by decide) hstep rfl
  exact run_history_sums_to_zero ⟨[], ⟨2025, 1, 1⟩⟩ [("main", 3)] 1 _ hrun
    (⟨2025, 1, 2⟩, [("main", 3), ("salary_income", 0), ("mortgage_income", 0),
      ("charity_expenditure", 0), ("opening_balances", -3)]) (by simp)

/-! ### C8: the simulation driver -/

/-- C8: whenever the driver completes, it has invoked the daily step once
per calendar day: the history has exactly `n` entries, consecutively dated
starting the day after the configured start date (which itself is never
simulated), each entry holding exactly the step function's output for its
date, with the accumulator initialised to zero and threaded between
consecutive calls. -/
theorem run_driver_spec (cfg : Config) (m : Balances) (n : Nat)
    (hist : List (Date × Balances)) (h : run cfg m n = .ok hist) :
    hist.length = n ∧ Threaded cfg.transactions m 0 cfg.start_date hist := by
  unfold run at h
  exact run_aux_spec n cfg.transactions cfg.start_date m 0 hist h

/-- The §8 example scenario's generator list. -/
def gens8 : List Generator :=
  [Generator.Mortgage (12345/100) 1 MAIN_ACCOUNT MORTGAGE_ACCOUNT,
   Generator.Salary 2000 6 MAIN_ACCOUNT]

/-- The §8 example scenario's configuration (start date 2025-01-01). -/
def cfg8 : Config := ⟨gens8, ⟨2025, 1, 1⟩⟩

/-- The §8 scenario's normalised opening sheet. -/
def bal8 : Balances :=
  add_opening_balances (add_default_accounts
    [(MAIN_ACCOUNT, 10000), (MORTGAGE_ACCOUNT, -500000)])

/-- The §8 scenario's sheet before the salary fires. -/
def bal8a : Balances :=
  [("main", 10000), ("mortgage", -500000), ("salary_income", 0), ("mortgage_income", 0),
    ("charity_expenditure", 0), ("opening_balances", 490000)]

/-- The §8 scenario's sheet after the salary fires on January 6. -/
def bal8b : Balances :=
  [("main", 12000), ("mortgage", -500000), ("salary_income", -2000), ("mortgage_income", 0),
    ("charity_expenditure", 0), ("opening_balances", 490000)]

/-- The §8 scenario's six-day history. -/
def hist8 : List (Date × Balances) :=
  [(⟨2025, 1, 2⟩, bal8a), (⟨2025, 1, 3⟩, bal8a), (⟨2025, 1, 4⟩, bal8a),
   (⟨2025, 1, 5⟩, bal8a), (⟨2025, 1, 6⟩, bal8b), (⟨2025, 1, 7⟩, bal8b)]

/-- On a day that is neither the 1st nor the 6th, the §8 generators change
nothing, so the step returns any zero-sum sheet unchanged. -/
theorem gens8_nofire (m : Balances) (date : Date) (h1 : date.day ≠ 1) (h6 : date.day ≠ 6)
    (hm : sumBal m = 0) :
    compute_next_day_balances_with_tithe gens8 m date 0 = .ok (m, 0) := by
  norm_num [gens8, compute_next_day_balances_with_tithe, apply_generators, apply_generator,
    h1, h6, hm]

/-- On day-of-month 6 the §8 salary fires: main +2000, salary_income −2000. -/
theorem gens8_salary_day :
    compute_next_day_balances_with_tithe gens8 bal8a ⟨2025, 1, 6⟩ 0 = .ok (bal8b, 2000) := by
  have e1 : ("main" : String) ≠ "salary_income" := by decide
  have e2 : ("mortgage" : String) ≠ "salary_income" := by decide
  norm_num [gens8, bal8a, bal8b, compute_next_day_balances_with_tithe, apply_generators,
    apply_generator, app2, adjust, getBal, sumBal, Except.map, SALARY_INCOME, MAIN_ACCOUNT,
    e1, e2]

/-- The §8 normalised opening sheet, spelt out. -/
theorem bal8_eq : bal8 = bal8a := by
  have e1 : ("main" : String) ≠ "salary_income" := by decide
  have e2 : ("main" : String) ≠ "mortgage_income" := by decide
  have e3 : ("main" : String) ≠ "charity_expenditure" := by decide
  have e4 : ("main" : String) ≠ "opening_balances" := by decide
  have e5 : ("mortgage" : String) ≠ "salary_income" := by decide
  have e6 : ("mortgage" : String) ≠ "mortgage_income" := by decide
  have e7 : ("mortgage" : String) ≠ "charity_expenditure" := by decide
  have e8 : ("mortgage" : String) ≠ "opening_balances" := by decide
  have e9 : ("salary_income" : String) ≠ "mortgage_income" := by decide
  have e10 : ("salary_income" : String) ≠ "charity_expenditure" := by decide
  have e11 : ("salary_income" : String) ≠ "opening_balances" := by decide
  have e12 : ("mortgage_income" : String) ≠ "charity_expenditure" := by decide
  have e13 : ("mortgage_income" : String) ≠ "opening_balances" := by decide
  have e14 : ("charity_expenditure" : String) ≠ "opening_balances" := by decide
  norm_num [bal8, bal8a, add_opening_balances, add_default_accounts, ensure_account,
    insertBal, getBal, sumBal, MAIN_ACCOUNT, MORTGAGE_ACCOUNT, SALARY_INCOME,
    MORTGAGE_INCOME, CHARITY_EXPENDITURE, OPENING_BALANCES,
    e1, e2, e3, e4, e5, e6, e7, e8, e9, e10, e11, e12, e13, e14]

/-- The §8 scenario's six-day run, chained day by day. -/
theorem run8_eq : run cfg8 bal8 6 = .ok hist8 := by
  have hA : sumBal bal8a = 0 := by norm_num [bal8a, sumBal]
  have hB : sumBal bal8b = 0 := by norm_num [bal8b, sumBal]
  have s2 : compute_next_day_balances_with_tithe gens8 bal8a ⟨2025, 1, 2⟩ 0 =
      .ok (bal8a, 0) := gens8_nofire bal8a ⟨2025, 1, 2⟩ (by decide) (by decide) hA
  have s3 : compute_next_day_balances_with_tithe gens8 bal8a ⟨2025, 1, 3⟩ 0 =
      .ok (bal8a, 0) := gens8_nofire bal8a ⟨2025, 1, 3⟩ (by decide) (by decide) hA
  have s4 : compute_next_day_balances_with_tithe gens8 bal8a ⟨2025, 1, 4⟩ 0 =
      .ok (bal8a, 0) := gens8_nofire bal8a ⟨2025, 1, 4⟩ (by decide) (by decide) hA
  have s5 : compute_next_day_balances_with_tithe gens8 bal8a ⟨2025, 1, 5⟩ 0 =
      .ok (bal8a, 0) := gens8_nofire bal8a ⟨2025, 1, 5⟩ (by decide) (by decide) hA
  have s7 : compute_next_day_balances_with_tithe gens8 bal8b ⟨2025, 1, 7⟩ 2000 =
      .ok (bal8b, 2000) := by
    have h7 : compute_next_day_balances_with_tithe gens8 bal8b ⟨2025, 1, 7⟩ 0 =
        .ok (bal8b, 0) := gens8_nofire bal8b ⟨2025, 1, 7⟩ (by decide) (by decide) hB
    norm_num [gens8, compute_next_day_balances_with_tithe, apply_generators,
      apply_generator, hB]
  show run_aux 6 gens8 ⟨2025, 1, 1⟩ bal8 0 = .ok hist8
  rw [bal8_eq]
  show run_aux (5 + 1) gens8 ⟨2025, 1, 1⟩ bal8a 0 = .ok hist8
  refine run_aux_step 5 gens8 _ _ _ _ _ _ _ (by decide) s2 ?_
  show run_aux (4 + 1) gens8 ⟨2025, 1, 2⟩ bal8a 0 = _
  refine run_aux_step 4 gens8 _ _ _ _ _ _ _ (by decide) s3 ?_
  show run_aux (3 + 1) gens8 ⟨2025, 1, 3⟩ bal8a 0 = _
  refine run_aux_step 3 gens8 _ _ _ _ _ _ _ (by decide) s4 ?_
  show run_aux (2 + 1) gens8 ⟨2025, 1, 4⟩ bal8a 0 = _
  refine run_aux_step 2 gens8 _ _ _ _ _ _ _ (by decide) s5 ?_
  show run_aux (1 + 1) gens8 ⟨2025, 1, 5⟩ bal8a 0 = _
  refine run_aux_step 1 gens8 _ _ _ _ _ _ _ (by decide) gens8_salary_day ?_
  show run_aux (0 + 1) gens8 ⟨2025, 1, 6⟩ bal8b 2000 = _
  exact run_aux_step 0 gens8 _ _ _ _ _ _ [] (by decide) s7 rfl

/-- C8 (witness): the §8 scenario — six simulated days, threaded steps,
final main balance 12000 and zero total. -/
theorem run_driver_spec_case :
    run cfg8 bal8 6 = .ok hist8 ∧ hist8.length = 6 ∧
      Threaded cfg8.transactions bal8 0 cfg8.start_date hist8 ∧
      getBal (hist8.getLastD (⟨0, 0, 0⟩, [])).2 MAIN_ACCOUNT = some 12000 ∧
      sumBal (hist8.getLastD (⟨0, 0, 0⟩, [])).2 = 0 := by
  obtain ⟨h1, h2⟩ := run_driver_spec cfg8 bal8 6 hist8 run8_eq
  refine ⟨run8_eq, h1, h2, ?_, ?_⟩
  · norm_num [hist8, bal8b, getBal, MAIN_ACCOUNT, List.getLastD]
  · norm_num [hist8, bal8b, sumBal, List.getLastD]

/-! ### C4: the day-5 mortgage-plus-interest scenario -/

/-- The §8 clamped-mortgage scenario's generator list: mortgage 500 then 5%
interest, both on day 5, in that declared order. -/
def gens4 : List Generator :=
  [Generator.Mortgage 500 5 MAIN_ACCOUNT MORTGAGE_ACCOUNT,
   Generator.Interest 5 5 MORTGAGE_ACCOUNT MORTGAGE_INCOME]

/-- The clamped-mortgage scenario's normalised opening sheet
(main 100, mortgage −500000). -/
def bal4 : Balances :=
  add_opening_balances (add_default_accounts
    [(MAIN_ACCOUNT, 100), (MORTGAGE_ACCOUNT, -500000)])

/-- The clamped-mortgage scenario's sheet after a day-5 step. -/
def bal4res : Balances :=
  [("main", 0), ("mortgage", -50198292/100), ("salary_income", 0),
    ("mortgage_income", 208292/100), ("charity_expenditure", 0),
    ("opening_balances", 499900)]

/-- Evaluation of the day-5 step of the clamped-mortgage scenario: the
mortgage deducts the entire 100 available, then interest accrues on the
post-deduction balance −499900. -/
theorem scenario4_step :
    compute_next_day_balances gens4 bal4 ⟨2025, 1, 5⟩ = .ok bal4res := by
  have e1 : ("main" : String) ≠ "salary_income" := by decide
  have e2 : ("main" : String) ≠ "mortgage_income" := by decide
  have e3 : ("main" : String) ≠ "charity_expenditure" := by decide
  have e4 : ("main" : String) ≠ "opening_balances" := by decide
  have e5 : ("mortgage" : String) ≠ "salary_income" := by decide
  have e6 : ("mortgage" : String) ≠ "mortgage_income" := by decide
  have e7 : ("mortgage" : String) ≠ "charity_expenditure" := by decide
  have e8 : ("mortgage" : String) ≠ "opening_balances" := by decide
  have e9 : ("salary_income" : String) ≠ "mortgage_income" := by decide
  have e10 : ("salary_income" : String) ≠ "charity_expenditure" := by decide
  have e11 : ("salary_income" : String) ≠ "opening_balances" := by decide
  have e12 : ("mortgage_income" : String) ≠ "charity_expenditure" := by decide
  have e13 : ("mortgage_income" : String) ≠ "opening_balances" := by decide
  have e14 : ("charity_expenditure" : String) ≠ "opening_balances" := by decide
  have e15 : ("main" : String) ≠ "mortgage" := by decide
  have hbal : bal4 = [("main", 100), ("mortgage", -500000), ("salary_income", 0),
      ("mortgage_income", 0), ("charity_expenditure", 0), ("opening_balances", 499900)] := by
    norm_num [bal4, add_opening_balances, add_default_accounts, ensure_account,
      insertBal, getBal, sumBal, MAIN_ACCOUNT, MORTGAGE_ACCOUNT, SALARY_INCOME,
      MORTGAGE_INCOME, CHARITY_EXPENDITURE, OPENING_BALANCES,
      e1, e2, e3, e4, e5, e6, e7, e8, e9, e10, e11, e12, e13, e14]
  have hround : round_dp2 (-(24995/12) : ℚ) = -208292/100 := by
    rw [round_dp2_eq_lo _ (-208292) (by norm_num) (by norm_num)]
    norm_num
  rw [hbal]
  norm_num [gens4, compute_next_day_balances, compute_next_day_balances_with_tithe,
    apply_generators, apply_generator, app2, adjust, getBal, sumBal, Except.map,
    min_def, max_def, hround, bal4res, MAIN_ACCOUNT, MORTGAGE_ACCOUNT, MORTGAGE_INCOME,
    e1, e2, e3, e4, e5, e6, e7, e8, e9, e10, e11, e12, e13, e14, e15]

/-- C4 (counterexample): the claim computes the day-5 interest on the
pre-deduction balance −500000, but the code (and its own test) applies the
mortgage first and accrues interest on −499900, so the mortgage account does
not end at the claimed value. -/
theorem scenario_day5_claimed_value_wrong :
    (compute_next_day_balances gens4 bal4 ⟨2025, 1, 5⟩).map
      (fun m' => getBal m' MORTGAGE_ACCOUNT) ≠
      .ok (some ((-500000 : ℚ) + 100 + round_dp2 ((-500000 : ℚ) * 5 / 1200))) := by
  have e15 : ("main" : String) ≠ "mortgage" := by decide
  have hr : round_dp2 ((-500000 : ℚ) * 5 / 1200) = -208333/100 := by
    rw [round_dp2_eq_hi _ (-208334) (by norm_num) (by norm_num)]
    norm_num
  rw [scenario4_step, hr]
  norm_num [Except.map, getBal, bal4res, MORTGAGE_ACCOUNT, e15]

/-- C4 (amended): in the scenario (main 100.00, mortgage 500.00 on day 5
against liability −500000.00, 5% interest on the mortgage account also on
day 5, declared in that order), stepping any day whose day-of-month is 5
deducts exactly 100 from main, which ends at zero, and leaves the mortgage
account at −500000 + 100 + round((−500000 + 100) × 5/1200, 2) — the
interest accrues on the balance left by the mortgage deduction. -/
theorem scenario_day5_balances (date : Date) (h : date.day = 5) :
    (compute_next_day_balances gens4 bal4 date).map
      (fun m' => (getBal m' MAIN_ACCOUNT, getBal m' MORTGAGE_ACCOUNT)) =
      .ok (some 0, some (-500000 + 100 + round_dp2 (((-500000 : ℚ) + 100) * 5 / 1200))) := by
  have e15 : ("main" : String) ≠ "mortgage" := by decide
  have hc : compute_next_day_balances gens4 bal4 date =
      compute_next_day_balances gens4 bal4 ⟨2025, 1, 5⟩ := by
    unfold compute_next_day_balances
    rw [step_day_congr gens4 bal4 date ⟨2025, 1, 5⟩ h 0]
  have hr : round_dp2 (((-500000 : ℚ) + 100) * 5 / 1200) = -208292/100 := by
    rw [round_dp2_eq_lo _ (-208292) (by norm_num) (by norm_num)]
    norm_num
  rw [hc, scenario4_step, hr]
  norm_num [Except.map, getBal, bal4res, MAIN_ACCOUNT, MORTGAGE_ACCOUNT, e15]

/-- C4 (witness): the amended scenario statement on the concrete date
2025-03-05. -/
theorem scenario_day5_balances_case :
    (compute_next_day_balances gens4 bal4 ⟨2025, 3, 5⟩).map
      (fun m' => (getBal m' MAIN_ACCOUNT, getBal m' MORTGAGE_ACCOUNT)) =
      .ok (some 0, some (-500000 + 100 + round_dp2 (((-500000 : ℚ) + 100) * 5 / 1200))) :=
  scenario_day5_balances ⟨2025, 3, 5⟩ rfl
